import Mathlib

/-!
# Verification of the AR hand-control core

A shallow embedding of the two algorithmic modules of the repository:
`hand_tracking_optimizer.py` (a per-landmark scalar Kalman filter bank with
velocity-based prediction and occlusion handling) and
`gesture_recognition_advanced.py` (finger-count based gesture scoring with a
bounded gesture history and temporal-pattern detection).

Conventions of the embedding:
* a numpy `(3,)` point is `V := ℚ × ℚ × ℚ`; a landmark set `(n, 3)` is
  `List V`; Python `None` is `Option.none`;
* Python floats are modelled as exact rationals (`0.1 ↦ 1/10`, `0.95 ↦ 19/20`);
* code that can raise (out-of-range indexing, `max` of an empty iterable)
  returns `Except Unit _`, with the state at the raise point kept, so that
  partial mutation before an exception is modelled faithfully.
-/

instance {ε α : Type} [DecidableEq ε] [DecidableEq α] : DecidableEq (Except ε α)
  | .ok a, .ok b =>
    if h : a = b then .isTrue (by rw [h]) else .isFalse (by simp [h])
  | .ok _, .error _ => .isFalse (by simp)
  | .error _, .ok _ => .isFalse (by simp)
  | .error a, .error b =>
    if h : a = b then .isTrue (by rw [h]) else .isFalse (by simp [h])

/-- A 3-D point (one row of a numpy `(n,3)` landmark array). -/
abbrev V : Type := ℚ × ℚ × ℚ

/-- Squared planar-free Euclidean distance between two 3-D points (used to
state convergence; monotone in the true Euclidean distance). -/
def distSq (a b : V) : ℚ :=
  (a.1 - b.1) ^ 2 + (a.2.1 - b.2.1) ^ 2 + (a.2.2 - b.2.2) ^ 2

/-! ## `KalmanFilter` (hand_tracking_optimizer.py, lines 14-41)

Python state: `x` (estimate, `None` before the first update), `p` (error
variance, `None` before the first update), `initialized : bool`.  The flag is
true exactly when `x` and `p` are set, so the state is one inductive. -/

/-- Process noise `self.q = 0.1`. -/
def kfQ : ℚ := 1 / 10

/-- Measurement noise `self.r = 0.1`. -/
def kfR : ℚ := 1 / 10

/-- The state of one `KalmanFilter`: either uninitialized
(`x = None, p = None, initialized = False`) or initialized with estimate `x`
and error variance `p`. -/
inductive KFState : Type
  | uninit : KFState
  | init (x : V) (p : ℚ) : KFState
deriving DecidableEq, Repr

/-- `KalmanFilter.update(z)`: on a fresh filter set `x = z`, `p = 1.0`,
mark initialized and return `z`; otherwise apply the scalar Kalman update
`k = p/(p+r)`, `x += k*(z-x)`, `p = (1-k)*p` and return the new `x`. -/
def KFState.update : KFState → V → KFState × V
  | .uninit, z => (.init z 1, z)
  | .init x p, z =>
    let k : ℚ := p / (p + kfR)
    let x2 : V := x + k • (z - x)
    (.init x2 ((1 - k) * p), x2)

/-- `KalmanFilter.predict()`: returns `None` (and leaves the state alone)
when uninitialized; otherwise adds the process noise to `p` and returns the
estimate unchanged. -/
def KFState.predict : KFState → KFState × Option V
  | .uninit => (.uninit, none)
  | .init x p => (.init x (p + kfQ), some x)

/-- The estimate component of a filter state (`None` when uninitialized). -/
def KFState.estimate : KFState → Option V
  | .uninit => none
  | .init x _ => some x

/-- The error-variance component of a filter state (`None` when
uninitialized). -/
def KFState.variance : KFState → Option ℚ
  | .uninit => none
  | .init _ p => some p

/-- One frame of the combined smoothing pass for a single landmark:
`filtered = update(z)` followed by `predict()` (as in
`smooth_landmarks`, lines 58-60). Returns the new state and the value stored
into `smoothed[i]`.  `update` always returns an array, so the Python
conditional `predict() if filtered is not None else filtered` always takes
the `predict()` branch. -/
def kfRound (f : KFState) (z : V) : KFState × Option V :=
  let (f2, _) := f.update z
  f2.predict

/-- The filter state after `n` frames of the update-then-predict pass with
the constant observation `z`, starting from a fresh filter. -/
def kfIter (z : V) : ℕ → KFState
  | 0 => .uninit
  | n + 1 => (kfRound (kfIter z n) z).1

/-- The smoothed output produced at frame `n + 1` of the constant-input
stream (the second component of the round applied to the state after `n`
frames). -/
def kfRoundOut (z : V) (n : ℕ) : Option V :=
  (kfRound (kfIter z n) z).2

/-! ## `HandTrackingOptimizer` (hand_tracking_optimizer.py, lines 43-84) -/

/-- The mutable state of a `HandTrackingOptimizer`: 21 Kalman filters, a
position buffer and a velocity history (both `deque(maxlen=buffer_size)`). -/
structure OptState : Type where
  bufferSize : ℕ
  kalman_filters : List KFState
  position_buffer : List V
  velocity_history : List V
deriving DecidableEq, Repr

/-- `HandTrackingOptimizer.__init__(buffer_size)` (default `buffer_size=5`):
21 fresh filters, both deques empty. -/
def mkOptimizer (bufferSize : ℕ) : OptState :=
  { bufferSize := bufferSize
    kalman_filters := List.replicate 21 .uninit
    position_buffer := []
    velocity_history := [] }

/-- The body of the loop in `smooth_landmarks`: runs the filters in
`fs` over `lms[i], lms[i+1], ...`.  Indexing `lms` out of range raises
(`IndexError`), leaving the filters from that point on untouched; filters
before the raise point have already been mutated. Returns the updated
filters and either the raise or the list of smoothed values. -/
def smoothGo (lms : List V) : List KFState → ℕ → List KFState × Except Unit (List V)
  | [], _ => ([], .ok [])
  | f :: fs, i =>
    match lms.get? i with
    | none => (f :: fs, .error ())
    | some z =>
      let f2 := (f.update z).1
      let filtered := (f.update z).2
      -- `update` always returns an array, so `smoothed[i]` is always the
      -- result of `predict()`; after an update that result is never `None`.
      let out : V := (f2.predict).2.getD filtered
      let rec2 := smoothGo lms fs (i + 1)
      ((f2.predict).1 :: rec2.1,
        match rec2.2 with
        | .ok r => .ok (out :: r)
        | .error e => .error e)

/-- `HandTrackingOptimizer.smooth_landmarks(landmarks)`: `None` passes
through with no mutation; otherwise every filter is updated in index order.
`smoothed = np.zeros_like(landmarks)` has the input's length, so when the
input is longer than 21 the extra rows stay zero. -/
def smooth_landmarks (s : OptState) (landmarks : Option (List V)) :
    OptState × Except Unit (Option (List V)) :=
  match landmarks with
  | none => (s, .ok none)
  | some lms =>
    let res := smoothGo lms s.kalman_filters 0
    ({ s with kalman_filters := res.1 },
      match res.2 with
      | .ok out => .ok (some (out ++ List.replicate (lms.length - 21) 0))
      | .error e => .error e)

/-- `HandTrackingOptimizer.predict_next_position()`: `None` with fewer than
2 buffered samples; otherwise `last + (last - second_to_last)`. -/
def predict_next_position (s : OptState) : Option V :=
  if s.position_buffer.length < 2 then none
  else
    match s.position_buffer.get? (s.position_buffer.length - 2),
          s.position_buffer.get? (s.position_buffer.length - 1) with
    | some a, some b => some (b + (b - a))
    | _, _ => none

/-- The result of `handle_occlusion`: the Python function returns either
`self.predict_next_position()` (a position, possibly `None`) or the
`landmarks` argument (a landmark set, possibly `None`), two different
shapes, so the embedding keeps them apart in a sum. -/
inductive OccResult : Type
  | predicted (p : Option V) : OccResult
  | passthrough (landmarks : Option (List V)) : OccResult
deriving DecidableEq, Repr

/-- `HandTrackingOptimizer.handle_occlusion(landmarks, confidence)`:
when `confidence < 0.3` and the position buffer is non-empty, return the
predicted next position; otherwise return the landmarks unchanged. -/
def handle_occlusion (s : OptState) (landmarks : Option (List V)) (confidence : ℚ) :
    OccResult :=
  if confidence < 3 / 10 ∧ 0 < s.position_buffer.length then
    .predicted (predict_next_position s)
  else
    .passthrough landmarks

/-- `HandTrackingOptimizer.get_tracking_quality()`: the pair
`(smoothness, stability)` with
`smoothness = len(position_buffer) / buffer_size` and `stability = 1.0` iff
the velocity history holds more than one entry. -/
def get_tracking_quality (s : OptState) : ℚ × ℚ :=
  ((s.position_buffer.length : ℚ) / (s.bufferSize : ℚ),
    if 1 < s.velocity_history.length then 1 else 0)

/-- The public calls of a `HandTrackingOptimizer`. -/
inductive OptCall : Type
  | smooth (landmarks : Option (List V))
  | predictNext
  | occlusion (landmarks : Option (List V)) (confidence : ℚ)
  | quality

/-- The state after one call: only `smooth_landmarks` mutates the object;
the other three methods are reads. -/
def optStep (s : OptState) : OptCall → OptState
  | .smooth landmarks => (smooth_landmarks s landmarks).1
  | .predictNext => s
  | .occlusion _ _ => s
  | .quality => s

/-- States of a `HandTrackingOptimizer` reachable from construction by any
sequence of method calls. -/
inductive OptReachable (bufferSize : ℕ) : OptState → Prop
  | construct : OptReachable bufferSize (mkOptimizer bufferSize)
  | step {s : OptState} (c : OptCall) :
      OptReachable bufferSize s → OptReachable bufferSize (optStep s c)

/-! ## `AdvancedGestureRecognizer` (gesture_recognition_advanced.py) -/

/-- One gesture definition: an optional expected extended-finger count
(`'fingers_extended' in definition`) and a confidence weight. -/
structure GestureDef : Type where
  fingers_extended : Option ℕ
  confidence_weight : ℚ
deriving DecidableEq, Repr

/-- `_load_gestures()`: the static definition table, in Python dict
insertion order. -/
def load_gestures : List (String × GestureDef) :=
  [("open_palm", ⟨some 5, 1⟩),
   ("fist", ⟨some 0, 19 / 20⟩),
   ("peace", ⟨some 2, 9 / 10⟩),
   ("thumbs_up", ⟨none, 17 / 20⟩),
   ("point", ⟨some 1, 22 / 25⟩)]

/-- The mutable state of an `AdvancedGestureRecognizer`. -/
structure RecState : Type where
  historyLength : ℕ
  gesture_history : List String
  confidence_threshold : ℚ
  gesture_definitions : List (String × GestureDef)
deriving DecidableEq, Repr

/-- `AdvancedGestureRecognizer.__init__(history_length)` (default 10). -/
def mkRecognizer (historyLength : ℕ) : RecState :=
  { historyLength := historyLength
    gesture_history := []
    confidence_threshold := 7 / 10
    gesture_definitions := load_gestures }

/-- Appending to a `deque(maxlen := cap)`: keep the last `cap` elements of
the extended sequence (the oldest entry is evicted when full). -/
def boundedAppend (cap : ℕ) (l : List String) (x : String) : List String :=
  (l ++ [x]).drop (l.length + 1 - cap)

/-- The `(tip, pip)` landmark-index pairs of `_count_extended_fingers`
(`zip(finger_tips, finger_pips)`). -/
def fingerPairs : List (ℕ × ℕ) := [(4, 3), (8, 7), (12, 11), (16, 15), (20, 19)]

/-- The loop of `_count_extended_fingers` over the `(tip, pip)` pairs: a tip
counts when `landmarks[tip][1] < landmarks[pip][1]` (strictly smaller `y`).
Indexing out of range raises (`IndexError`). -/
def countFingersGo (lms : List V) : List (ℕ × ℕ) → Except Unit ℕ
  | [] => .ok 0
  | (tip, pip) :: rest =>
    match lms.get? tip, lms.get? pip with
    | some t, some p =>
      (countFingersGo lms rest).map fun c => (if t.2.1 < p.2.1 then 1 else 0) + c
    | _, _ => .error ()

/-- `_count_extended_fingers(landmarks)`. -/
def count_extended_fingers (lms : List V) : Except Unit ℕ :=
  countFingersGo lms fingerPairs

/-- `_calculate_gesture_score(fingers, shape, gesture, definition)`:
`score = 0.0`, plus `finger_match * confidence_weight` when the definition
carries a `fingers_extended` entry, capped by `min(1.0, score)`.  The
`shape` statistics and the gesture name are received but never read. -/
def calculate_gesture_score (fingers : ℕ) (definition : GestureDef) : ℚ :=
  let score : ℚ := 0 +
    match definition.fingers_extended with
    | some fe => (if fingers = fe then 1 else 0) * definition.confidence_weight
    | none => 0
  min 1 score

/-- Python's `max(items, key=value)` over an association list: the first
entry attaining the maximal value (later entries replace the champion only
when strictly greater); `None` on the empty list, where Python raises. -/
def maxByVal : List (String × ℚ) → Option (String × ℚ)
  | [] => none
  | x :: rest =>
    some (rest.foldl (fun best y => if best.2 < y.2 then y else best) x)

/-- The per-definition score table of `detect_gesture` followed by the
`max` over it, for a given extended-finger count. -/
def bestGesture (defs : List (String × GestureDef)) (fingers : ℕ) :
    Option (String × ℚ) :=
  maxByVal (defs.map fun nd => (nd.1, calculate_gesture_score fingers nd.2))

/-- `detect_gesture(hand_landmarks)`: `None` input returns
`("unknown", 0.0)` untouched; otherwise the extended fingers are counted
(raising on malformed input), every definition is scored, and the best
score is accepted (appended to the bounded history and returned) exactly
when it reaches the confidence threshold. -/
def detect_gesture (r : RecState) (hand_landmarks : Option (List V)) :
    RecState × Except Unit (String × ℚ) :=
  match hand_landmarks with
  | none => (r, .ok ("unknown", 0))
  | some lms =>
    match count_extended_fingers lms with
    | .error e => (r, .error e)
    | .ok fingers =>
      match bestGesture r.gesture_definitions fingers with
      | none => (r, .error ())
      | some best =>
        if r.confidence_threshold ≤ best.2 then
          ({ r with gesture_history :=
              boundedAppend r.historyLength r.gesture_history best.1 },
            .ok best)
        else
          (r, .ok ("unknown", 0))

/-- `detect_gesture_combination()`: `None` below 3 history entries;
`"sustained_<name>"` when the last 3 entries are one repeated name
(`len(set(recent)) == 1`), `"combination"` otherwise. -/
def detect_gesture_combination (r : RecState) : Option String :=
  if r.gesture_history.length < 3 then none
  else
    let recent := r.gesture_history.drop (r.gesture_history.length - 3)
    if recent.dedup.length = 1 then some ("sustained_" ++ recent.headI)
    else some "combination"

/-- The recognizer state after a sequence of `detect_gesture` calls. -/
def runDetections (r : RecState) (inputs : List (Option (List V))) : RecState :=
  inputs.foldl (fun r lms => (detect_gesture r lms).1) r

-- sanity checks of the embedding on concrete values
example : (KFState.uninit.update (1, 2, 3)).1 = .init (1, 2, 3) 1 := rfl
example : KFState.uninit.predict = (.uninit, none) := rfl
example : kfIter (5, 0, 0) 1 = .init (5, 0, 0) (11 / 10) := by
  simp [kfIter, kfRound, KFState.update, KFState.predict, kfQ]
  norm_num
example : predict_next_position (mkOptimizer 5) = none := rfl
example :
    predict_next_position { mkOptimizer 5 with position_buffer := [(0, 0, 0), (1, 2, 3)] } =
      some (2, 4, 6) := by
  simp [predict_next_position, mkOptimizer, Prod.ext_iff]
  norm_num
example :
    handle_occlusion { mkOptimizer 5 with position_buffer := [(1, 1, 1), (2, 2, 2)] }
      (some []) (1 / 5) = .predicted (some (3, 3, 3)) := by
  norm_num [handle_occlusion, predict_next_position, mkOptimizer, Prod.ext_iff]
example : count_extended_fingers (List.replicate 21 0) = .ok 0 := by decide
example : count_extended_fingers (List.replicate 20 0) = .error () := by decide
example : calculate_gesture_score 0 ⟨some 0, 19 / 20⟩ = 19 / 20 := by
  norm_num [calculate_gesture_score]
example :
    detect_gesture_combination
      { mkRecognizer 10 with gesture_history := ["fist", "fist", "fist"] } =
      some "sustained_fist" := by decide

/-- The value of the score table plus `max` of `detect_gesture`, for each
possible extended-finger count. -/
theorem bestGesture_eval (fingers : ℕ) :
    bestGesture load_gestures fingers =
      if fingers = 5 then some ("open_palm", 1)
      else if fingers = 0 then some ("fist", 19 / 20)
      else if fingers = 2 then some ("peace", 9 / 10)
      else if fingers = 1 then some ("point", 22 / 25)
      else some ("open_palm", 0) := by
  by_cases h5 : fingers = 5
  · subst h5
    norm_num [bestGesture, load_gestures, maxByVal, calculate_gesture_score]
  · by_cases h0 : fingers = 0
    · subst h0
      norm_num [bestGesture, load_gestures, maxByVal, calculate_gesture_score]
    · by_cases h2 : fingers = 2
      · subst h2
        norm_num [bestGesture, load_gestures, maxByVal, calculate_gesture_score]
      · by_cases h1 : fingers = 1
        · subst h1
          norm_num [bestGesture, load_gestures, maxByVal, calculate_gesture_score]
        · norm_num [bestGesture, load_gestures, maxByVal, calculate_gesture_score,
            h5, h0, h2, h1]

example :
    (detect_gesture (mkRecognizer 10) (some (List.replicate 21 0))).2 =
      .ok ("fist", 19 / 20) := by
  have hc : count_extended_fingers (List.replicate 21 0) = .ok 0 := by decide
  norm_num [detect_gesture, hc, bestGesture_eval, mkRecognizer]

/-! ## Claim theorems -/

/-- C5: for every observation `z`, `update(z)` then `predict()` on a fresh
filter returns an estimate equal to `z`; the first update sets the estimate
to the observation, sets the error variance to `1.0`, marks the filter
initialized, and returns the observation unchanged; `predict` never changes
the estimate. -/
theorem kalman_first_update_identity (z : V) :
    KFState.uninit.update z = (.init z 1, z)
    ∧ (KFState.uninit.update z).1.estimate = some z
    ∧ (KFState.uninit.update z).1.variance = some 1
    ∧ ((KFState.uninit.update z).1.predict).2 = some z
    ∧ ∀ x p, (KFState.init x p).predict = (.init x (p + kfQ), some x) :=
  ⟨rfl, rfl, rfl, rfl, fun _ _ => rfl⟩

/-- C6: `predict_next_position` returns the unavailable sentinel whenever
the position history holds fewer than 2 samples, and with the last two
buffered samples `p` and `p + v` it returns exactly `p + 2v`. -/
theorem predict_next_position_spec (s : OptState) :
    (s.position_buffer.length < 2 → predict_next_position s = none)
    ∧ ∀ (l : List V) (p v : V), s.position_buffer = l ++ [p, p + v] →
        predict_next_position s = some (p + 2 • v) := by
  constructor
  · intro h
    simp [predict_next_position, h]
  · intro l p v h
    have hlen : s.position_buffer.length = l.length + 2 := by simp [h]
    have hlt : ¬ s.position_buffer.length < 2 := by omega
    have h2 : s.position_buffer.length - 2 = l.length := by omega
    have h1 : s.position_buffer.length - 1 = l.length + 1 := by omega
    have ha : s.position_buffer.get? (s.position_buffer.length - 2) = some p := by
      rw [h2, h, List.get?_append_right (le_refl _)]
      simp
    have hb : s.position_buffer.get? (s.position_buffer.length - 1) = some (p + v) := by
      rw [h1, h, List.get?_append_right (by omega)]
      simp
    rw [predict_next_position, if_neg hlt, ha, hb, two_nsmul]
    congr 1
    abel

/-- Witness for C6 at a concrete buffer. -/
theorem predict_next_position_spec_witness :
    predict_next_position
        { bufferSize := 5, kalman_filters := List.replicate 21 .uninit,
          position_buffer := [(1, 1, 1)], velocity_history := [] } = none
    ∧ predict_next_position
        { bufferSize := 5, kalman_filters := List.replicate 21 .uninit,
          position_buffer := [(1, 1, 1), (2, 3, 4)], velocity_history := [] } =
        some ((1, 1, 1) + 2 • ((1, 2, 3) : V)) := by
  constructor
  · exact (predict_next_position_spec _).1 (by decide)
  · exact (predict_next_position_spec _).2 [] (1, 1, 1) (1, 2, 3)
      (by norm_num [Prod.ext_iff])

/-- C2: for every landmark set and every detection confidence,
`handle_occlusion` returns the predicted next position (full replacement,
even for non-null input) when the confidence is strictly below `0.3` and the
position history is non-empty, and the supplied landmarks unchanged in every
other case. -/
theorem handle_occlusion_spec (s : OptState) (landmarks : Option (List V))
    (confidence : ℚ) :
    (confidence < 3 / 10 → s.position_buffer ≠ [] →
      handle_occlusion s landmarks confidence = .predicted (predict_next_position s))
    ∧ (¬ (confidence < 3 / 10 ∧ s.position_buffer ≠ []) →
      handle_occlusion s landmarks confidence = .passthrough landmarks) := by
  constructor
  · intro hc hb
    rw [handle_occlusion, if_pos ⟨hc, List.length_pos.mpr hb⟩]
  · intro hn
    rw [handle_occlusion, if_neg]
    intro ⟨hc, hb⟩
    exact hn ⟨hc, List.length_pos.mp hb⟩

/-- Witness for C2: a below-threshold confidence with non-empty history is
replaced by the prediction; an above-threshold confidence passes through. -/
theorem handle_occlusion_spec_witness :
    handle_occlusion
        { bufferSize := 5, kalman_filters := List.replicate 21 .uninit,
          position_buffer := [(1, 1, 1), (2, 2, 2)], velocity_history := [] }
        (some [(9, 9, 9)]) (1 / 5) =
      .predicted (predict_next_position
        { bufferSize := 5, kalman_filters := List.replicate 21 .uninit,
          position_buffer := [(1, 1, 1), (2, 2, 2)], velocity_history := [] })
    ∧ handle_occlusion
        { bufferSize := 5, kalman_filters := List.replicate 21 .uninit,
          position_buffer := [(1, 1, 1), (2, 2, 2)], velocity_history := [] }
        (some [(9, 9, 9)]) (1 / 2) =
      .passthrough (some [(9, 9, 9)]) := by
  constructor
  · exact (handle_occlusion_spec _ _ _).1 (by norm_num) (by simp)
  · exact (handle_occlusion_spec _ _ _).2 (by norm_num)

/-- `smooth_landmarks` only replaces the filter bank: the two deques and the
buffer size of the state are untouched on every path. -/
theorem smooth_landmarks_preserves_buffers (s : OptState) (lms : Option (List V)) :
    (smooth_landmarks s lms).1.position_buffer = s.position_buffer
    ∧ (smooth_landmarks s lms).1.velocity_history = s.velocity_history
    ∧ (smooth_landmarks s lms).1.bufferSize = s.bufferSize := by
  cases lms with
  | none => exact ⟨rfl, rfl, rfl⟩
  | some l => exact ⟨rfl, rfl, rfl⟩

/-- No method of `HandTrackingOptimizer` appends to the position buffer or
the velocity history. -/
theorem optStep_preserves_buffers (s : OptState) (c : OptCall) :
    (optStep s c).position_buffer = s.position_buffer
    ∧ (optStep s c).velocity_history = s.velocity_history
    ∧ (optStep s c).bufferSize = s.bufferSize := by
  cases c with
  | smooth lms => exact smooth_landmarks_preserves_buffers s lms
  | predictNext => exact ⟨rfl, rfl, rfl⟩
  | occlusion lms conf => exact ⟨rfl, rfl, rfl⟩
  | quality => exact ⟨rfl, rfl, rfl⟩

/-- C1: in every state reachable from construction by any sequence of method
calls, the position buffer and velocity history are empty; hence
`predict_next_position` returns the unavailable sentinel,
`handle_occlusion` passes its landmarks through for every confidence, and
`get_tracking_quality` reports smoothness `0.0` and stability `0.0`. -/
theorem optimizer_buffers_stay_empty (bs : ℕ) (s : OptState)
    (h : OptReachable bs s) :
    s.position_buffer = [] ∧ s.velocity_history = []
    ∧ predict_next_position s = none
    ∧ (∀ lms conf, handle_occlusion s lms conf = .passthrough lms)
    ∧ get_tracking_quality s = (0, 0) := by
  have hbuf : s.position_buffer = [] ∧ s.velocity_history = [] := by
    induction h with
    | construct => exact ⟨rfl, rfl⟩
    | step c _ ih =>
      obtain ⟨hp, hv, _⟩ := optStep_preserves_buffers _ c
      exact ⟨hp.trans ih.1, hv.trans ih.2⟩
  refine ⟨hbuf.1, hbuf.2, ?_, ?_, ?_⟩
  · simp [predict_next_position, hbuf.1]
  · intro lms conf
    rw [handle_occlusion, if_neg]
    simp [hbuf.1]
  · simp [get_tracking_quality, hbuf.1, hbuf.2]

/-- Witness for C1 at a state reached by one smoothing step. -/
theorem optimizer_buffers_stay_empty_witness :
    (optStep (mkOptimizer 5) (.smooth (some (List.replicate 21 0)))).position_buffer = []
    ∧ (optStep (mkOptimizer 5) (.smooth (some (List.replicate 21 0)))).velocity_history = []
    ∧ predict_next_position (optStep (mkOptimizer 5) (.smooth (some (List.replicate 21 0)))) = none
    ∧ handle_occlusion (optStep (mkOptimizer 5) (.smooth (some (List.replicate 21 0))))
        (some [(9, 9, 9)]) (1 / 5) = .passthrough (some [(9, 9, 9)])
    ∧ get_tracking_quality (optStep (mkOptimizer 5) (.smooth (some (List.replicate 21 0)))) = (0, 0) := by
  obtain ⟨h1, h2, h3, h4, h5⟩ :=
    optimizer_buffers_stay_empty 5 _
      (OptReachable.step (.smooth (some (List.replicate 21 0))) OptReachable.construct)
  exact ⟨h1, h2, h3, h4 (some [(9, 9, 9)]) (1 / 5), h5⟩

/-- A three-element list has one distinct element (`len(set(·)) == 1`)
exactly when its entries coincide. -/
theorem dedup_three_eq_one_iff (a b c : String) :
    ([a, b, c] : List String).dedup.length = 1 ↔ (a = b ∧ b = c) := by
  by_cases hab : a = b <;> by_cases hbc : b = c
  · subst hab; subst hbc
    simp [List.dedup_cons_of_mem]
  · subst hab
    rw [List.dedup_cons_of_mem (by simp), List.dedup_cons_of_not_mem (by simp [hbc])]
    simp [hbc]
  · subst hbc
    rw [List.dedup_cons_of_not_mem (by simp [hab]), List.dedup_cons_of_mem (by simp)]
    simp [hab]
  · by_cases hac : a = c
    · subst hac
      rw [List.dedup_cons_of_mem (by simp), List.dedup_cons_of_not_mem (by simp [hbc])]
      simp [hab]
    · rw [List.dedup_cons_of_not_mem (by simp [hab, hac]),
        List.dedup_cons_of_not_mem (by simp [hbc])]
      simp [hab]

/-- C7: `detect_gesture_combination` returns the none sentinel when fewer
than 3 entries are in the history; with at least 3 entries it returns
`"sustained_<name>"` when the last 3 entries repeat one name, and
`"combination"` otherwise. -/
theorem detect_combination_spec (r : RecState) :
    (r.gesture_history.length < 3 → detect_gesture_combination r = none)
    ∧ (∀ l g, r.gesture_history = l ++ [g, g, g] →
        detect_gesture_combination r = some ("sustained_" ++ g))
    ∧ (∀ l a b c, r.gesture_history = l ++ [a, b, c] → ¬ (a = b ∧ b = c) →
        detect_gesture_combination r = some "combination") := by
  refine ⟨fun h => by simp [detect_gesture_combination, h], ?_, ?_⟩
  · intro l g h
    have hlen : r.gesture_history.length = l.length + 3 := by simp [h]
    have hdrop : r.gesture_history.drop (r.gesture_history.length - 3) = [g, g, g] := by
      rw [h]
      have h3 : (l ++ [g, g, g]).length - 3 = l.length := by simp
      rw [h3]
      exact List.drop_left l [g, g, g]
    rw [detect_gesture_combination, if_neg (by omega)]
    rw [hdrop]
    rw [if_pos ((dedup_three_eq_one_iff g g g).mpr ⟨rfl, rfl⟩)]
    rfl
  · intro l a b c h hne
    have hlen : r.gesture_history.length = l.length + 3 := by simp [h]
    have hdrop : r.gesture_history.drop (r.gesture_history.length - 3) = [a, b, c] := by
      rw [h]
      have h3 : (l ++ [a, b, c]).length - 3 = l.length := by simp
      rw [h3]
      exact List.drop_left l [a, b, c]
    rw [detect_gesture_combination, if_neg (by omega)]
    rw [hdrop]
    rw [if_neg (fun hone => hne ((dedup_three_eq_one_iff a b c).mp hone))]

/-- Witness for C7: the sentinel below 3 entries, a sustained run, and a
mixed run, each at a concrete history. -/
theorem detect_combination_spec_witness :
    detect_gesture_combination { mkRecognizer 10 with gesture_history := ["fist"] } = none
    ∧ detect_gesture_combination
        { mkRecognizer 10 with gesture_history := ["fist", "fist", "fist"] } =
        some "sustained_fist"
    ∧ detect_gesture_combination
        { mkRecognizer 10 with gesture_history := ["fist", "peace", "fist"] } =
        some "combination" := by
  refine ⟨(detect_combination_spec _).1 (by decide), ?_, ?_⟩
  · exact (detect_combination_spec _).2.1 [] "fist" rfl
  · exact (detect_combination_spec _).2.2 [] "fist" "peace" "fist" rfl (by simp)

/-- The finger-counting loop raises as soon as one of its `(tip, pip)`
pairs indexes past the end of the landmark list. -/
theorem countFingersGo_error (lms : List V) (pairs : List (ℕ × ℕ))
    (h : ∃ tp ∈ pairs, lms.length ≤ tp.1 ∨ lms.length ≤ tp.2) :
    countFingersGo lms pairs = .error () := by
  induction pairs with
  | nil => simp at h
  | cons hd tl ih =>
    obtain ⟨tip, pip⟩ := hd
    rw [countFingersGo]
    cases hget : lms.get? tip with
    | none => rfl
    | some t =>
      cases hget2 : lms.get? pip with
      | none => rfl
      | some p =>
        have htip : tip < lms.length := by
          by_contra hh
          rw [List.get?_eq_none.mpr (by omega)] at hget
          exact absurd hget (by simp)
        have hpip : pip < lms.length := by
          by_contra hh
          rw [List.get?_eq_none.mpr (by omega)] at hget2
          exact absurd hget2 (by simp)
        have htl : ∃ tp ∈ tl, lms.length ≤ tp.1 ∨ lms.length ≤ tp.2 := by
          rcases h with ⟨tp, hmem, hcase⟩
          rcases List.mem_cons.mp hmem with heq | hmem2
          · subst heq
            omega
          · exact ⟨tp, hmem2, hcase⟩
        rw [ih htl]
        rfl

/-- The finger-counting loop succeeds when every `(tip, pip)` pair is in
range. -/
theorem countFingersGo_ok (lms : List V) (pairs : List (ℕ × ℕ))
    (h : ∀ tp ∈ pairs, tp.1 < lms.length ∧ tp.2 < lms.length) :
    ∃ n, countFingersGo lms pairs = .ok n := by
  induction pairs with
  | nil => exact ⟨0, rfl⟩
  | cons hd tl ih =>
    obtain ⟨tip, pip⟩ := hd
    obtain ⟨h1, h2⟩ := h (tip, pip) (List.mem_cons_self _ _)
    cases hget : lms.get? tip with
    | none =>
      rw [List.get?_eq_none] at hget
      omega
    | some t =>
      cases hget2 : lms.get? pip with
      | none =>
        rw [List.get?_eq_none] at hget2
        omega
      | some p =>
        obtain ⟨n, hn⟩ := ih fun tp hm => h tp (List.mem_cons_of_mem _ hm)
        refine ⟨(if t.2.1 < p.2.1 then 1 else 0) + n, ?_⟩
        rw [countFingersGo, hget, hget2, hn]
        rfl

/-- The smoothing loop raises as soon as a filter indexes past the end of
the landmark list (there is at least one filter and the list is shorter
than `i +` the number of remaining filters). -/
theorem smoothGo_error (lms : List V) :
    ∀ (fs : List KFState) (i : ℕ), fs ≠ [] → lms.length < i + fs.length →
      (smoothGo lms fs i).2 = .error () := by
  intro fs
  induction fs with
  | nil => simp
  | cons f fs' ih =>
    intro i _ h
    rw [smoothGo]
    cases hget : lms.get? i with
    | none => rfl
    | some z =>
      have hi : i < lms.length := by
        by_contra hh
        rw [List.get?_eq_none.mpr (by omega)] at hget
        exact absurd hget (by simp)
      cases fs' with
      | nil => simp at h; omega
      | cons g gs =>
        have herr := ih (i + 1) (by simp) (by simp at h ⊢; omega)
        simp only []
        rw [herr]

/-- The smoothing loop succeeds when the landmark list covers every
remaining filter index. -/
theorem smoothGo_ok (lms : List V) :
    ∀ (fs : List KFState) (i : ℕ), i + fs.length ≤ lms.length →
      ∃ out, (smoothGo lms fs i).2 = .ok out := by
  intro fs
  induction fs with
  | nil => exact fun i _ => ⟨[], rfl⟩
  | cons f fs' ih =>
    intro i h
    have hi : i < lms.length := by simp at h; omega
    cases hget : lms.get? i with
    | none =>
      rw [List.get?_eq_none] at hget
      omega
    | some z =>
      obtain ⟨out, hout⟩ := ih (i + 1) (by simp at h ⊢; omega)
      refine ⟨((f.update z).1.predict).2.getD (f.update z).2 :: out, ?_⟩
      rw [smoothGo, hget]
      simp [hout]

/-- C3 counterexample: a landmark set of length 22 (≠ 21) is processed by
`_count_extended_fingers` without any error — an oversized set is silently
accepted, not reported. -/
theorem shape_mismatch_cex :
    (List.replicate 22 ((0 : ℚ), (0 : ℚ), (0 : ℚ))).length ≠ 21
    ∧ count_extended_fingers (List.replicate 22 ((0 : ℚ), (0 : ℚ), (0 : ℚ))) = .ok 0 := by
  constructor
  · decide
  · decide

/-- C3 (amended): a landmark set shorter than 21 makes both components
raise (out-of-range indexing), which is distinct from the missing-input
path (`None` in, `None` out without error); a landmark set of length 21 or
more is accepted without error — entries beyond index 20 are silently
ignored (and `smooth_landmarks` returns them as zero rows). -/
theorem shape_mismatch_behaviour (lms : List V) (s : OptState)
    (hf : s.kalman_filters.length = 21) :
    (lms.length < 21 →
      count_extended_fingers lms = .error ()
      ∧ (smooth_landmarks s (some lms)).2 = .error ())
    ∧ (21 ≤ lms.length →
      (∃ n, count_extended_fingers lms = .ok n)
      ∧ ∃ out, (smooth_landmarks s (some lms)).2 =
          .ok (some (out ++ List.replicate (lms.length - 21) 0)))
    ∧ (smooth_landmarks s none).2 = .ok none := by
  refine ⟨fun hshort => ⟨?_, ?_⟩, fun hlong => ⟨?_, ?_⟩, rfl⟩
  · exact countFingersGo_error lms fingerPairs ⟨(20, 19), by simp [fingerPairs], by omega⟩
  · have := smoothGo_error lms s.kalman_filters 0 (by
      intro hnil
      rw [hnil] at hf
      simp at hf) (by omega)
    simp [smooth_landmarks, this]
  · refine countFingersGo_ok lms fingerPairs fun tp hm => ?_
    fin_cases hm <;> constructor <;> omega
  · obtain ⟨out, hout⟩ := smoothGo_ok lms s.kalman_filters 0 (by omega)
    exact ⟨out, by simp [smooth_landmarks, hout]⟩

/-- Witness for C3 (amended) at a too-short and an oversized landmark
set. -/
theorem shape_mismatch_behaviour_witness :
    (count_extended_fingers (List.replicate 20 ((0 : ℚ), (0 : ℚ), (0 : ℚ))) = .error ()
      ∧ (smooth_landmarks (mkOptimizer 5)
          (some (List.replicate 20 ((0 : ℚ), (0 : ℚ), (0 : ℚ))))).2 = .error ())
    ∧ ((∃ n, count_extended_fingers (List.replicate 22 ((0 : ℚ), (0 : ℚ), (0 : ℚ))) = .ok n)
      ∧ ∃ out, (smooth_landmarks (mkOptimizer 5)
          (some (List.replicate 22 ((0 : ℚ), (0 : ℚ), (0 : ℚ))))).2 =
          .ok (some (out ++ List.replicate
            ((List.replicate 22 ((0 : ℚ), (0 : ℚ), (0 : ℚ))).length - 21) 0))) := by
  constructor
  · exact (shape_mismatch_behaviour _ (mkOptimizer 5) (by simp [mkOptimizer])).1 (by decide)
  · exact (shape_mismatch_behaviour _ (mkOptimizer 5) (by simp [mkOptimizer])).2.1 (by decide)

/-- C4: with the spec's constraint `confidence_weight ∈ [0,1]`, the gesture
score is the definition's confidence weight when its expected finger count
equals the computed count and `0.0` otherwise (in particular `0.0` whenever
the definition carries no finger count); and `detect_gesture` never returns
a definition without a finger count — `thumbs_up` is unreachable. -/
theorem gesture_score_spec :
    (∀ (definition : GestureDef) (fingers : ℕ),
      definition.confidence_weight ≤ 1 →
      calculate_gesture_score fingers definition =
        match definition.fingers_extended with
        | some fe => if fingers = fe then definition.confidence_weight else 0
        | none => 0)
    ∧ ∀ (r : RecState) (lms : Option (List V)) (name : String) (score : ℚ),
      r.gesture_definitions = load_gestures →
      (detect_gesture r lms).2 = .ok (name, score) → name ≠ "thumbs_up" := by
  constructor
  · intro definition fingers hw
    cases hfe : definition.fingers_extended with
    | none => norm_num [calculate_gesture_score, hfe]
    | some fe =>
      by_cases hmatch : fingers = fe
      · simp [calculate_gesture_score, hfe, hmatch, min_eq_right hw]
      · norm_num [calculate_gesture_score, hfe, hmatch]
  · intro r lms name score hdefs h
    cases lms with
    | none =>
      simp only [detect_gesture, Except.ok.injEq, Prod.mk.injEq] at h
      rw [← h.1]
      decide
    | some l =>
      cases hc : count_extended_fingers l with
      | error e => simp [detect_gesture, hc] at h
      | ok fingers =>
        simp only [detect_gesture, hc, hdefs, bestGesture_eval] at h
        have key : ∀ (s1 : RecState) (n : String) (v : ℚ),
            n ≠ "thumbs_up" →
            (if r.confidence_threshold ≤ v
              then (s1, (Except.ok (n, v) : Except Unit (String × ℚ)))
              else (r, Except.ok ("unknown", (0 : ℚ)))).2 = Except.ok (name, score) →
            name ≠ "thumbs_up" := by
          intro s1 n v hn hh
          split_ifs at hh <;> simp only [Except.ok.injEq, Prod.mk.injEq] at hh
          · rw [← hh.1]; exact hn
          · rw [← hh.1]; decide
        split_ifs at h
        · exact key _ _ _ (by decide) h
        · exact key _ _ _ (by decide) h
        · exact key _ _ _ (by decide) h
        · exact key _ _ _ (by decide) h
        · exact key _ _ _ (by decide) h

/-- Witness for C4: the `thumbs_up` definition (no finger count) scores
`0.0`, and a concrete accepted detection names a finger-count gesture. -/
theorem gesture_score_spec_witness :
    calculate_gesture_score 3 ⟨none, 17 / 20⟩ = 0
    ∧ "fist" ≠ "thumbs_up" := by
  have hev : (detect_gesture (mkRecognizer 10) (some (List.replicate 21 0))).2 =
      .ok ("fist", 19 / 20) := by
    have hc : count_extended_fingers (List.replicate 21 0) = .ok 0 := by decide
    norm_num [detect_gesture, hc, bestGesture_eval, mkRecognizer]
  constructor
  · exact (gesture_score_spec.1 ⟨none, 17 / 20⟩ 3 (by norm_num)).trans rfl
  · exact gesture_score_spec.2 (mkRecognizer 10) (some (List.replicate 21 0))
      "fist" (19 / 20) rfl hev

/-- C8: `detect_gesture` appends the winning name to the bounded history
and returns the winning pair exactly when landmarks are present and the
argmax score reaches the confidence threshold; on absent landmarks or a
below-threshold winner it returns `("unknown", 0.0)` and leaves the state
untouched. -/
theorem detect_gesture_threshold_spec (r : RecState) :
    detect_gesture r none = (r, .ok ("unknown", 0))
    ∧ ∀ (lms : List V) (fingers : ℕ) (best : String × ℚ),
      count_extended_fingers lms = .ok fingers →
      bestGesture r.gesture_definitions fingers = some best →
      ((r.confidence_threshold ≤ best.2 →
        detect_gesture r (some lms) =
          ({ r with gesture_history :=
              boundedAppend r.historyLength r.gesture_history best.1 },
            .ok best))
      ∧ (best.2 < r.confidence_threshold →
        detect_gesture r (some lms) = (r, .ok ("unknown", 0)))) := by
  refine ⟨rfl, ?_⟩
  intro lms fingers best hc hb
  constructor
  · intro hth
    simp only [detect_gesture, hc, hb, if_pos hth]
  · intro hlt
    simp only [detect_gesture, hc, hb, if_neg (not_le.mpr hlt)]

/-- Witness for C8: a fist input is accepted and appended; a 3-finger input
scores below the threshold and leaves the state untouched. -/
theorem detect_gesture_threshold_spec_witness :
    detect_gesture (mkRecognizer 10) (some (List.replicate 21 0)) =
      ({ mkRecognizer 10 with gesture_history := boundedAppend 10 [] "fist" },
        .ok ("fist", 19 / 20))
    ∧ detect_gesture (mkRecognizer 10) (some
        [(0, 0, 0), (0, 0, 0), (0, 0, 0), (0, 0, 0), (0, -1, 0),
         (0, 0, 0), (0, 0, 0), (0, 0, 0), (0, -1, 0),
         (0, 0, 0), (0, 0, 0), (0, 0, 0), (0, -1, 0),
         (0, 0, 0), (0, 0, 0), (0, 0, 0), (0, 0, 0),
         (0, 0, 0), (0, 0, 0), (0, 0, 0), (0, 0, 0)]) =
      (mkRecognizer 10, .ok ("unknown", 0)) := by
  constructor
  · exact ((detect_gesture_threshold_spec (mkRecognizer 10)).2
      (List.replicate 21 0) 0 ("fist", 19 / 20) (by decide)
      (by norm_num [mkRecognizer, bestGesture_eval])).1 (by norm_num [mkRecognizer])
  · exact ((detect_gesture_threshold_spec (mkRecognizer 10)).2
      _ 3 ("open_palm", 0) (by decide)
      (by norm_num [mkRecognizer, bestGesture_eval])).2 (by norm_num [mkRecognizer])

/-- A bounded append never leaves more than `cap` entries. -/
theorem boundedAppend_length_le (cap : ℕ) (l : List String) (x : String) :
    (boundedAppend cap l x).length ≤ cap := by
  simp only [boundedAppend, List.length_drop, List.length_append,
    List.length_singleton]
  omega

/-- One `detect_gesture` call keeps the configured capacity and either
leaves the history alone or bounded-appends one name. -/
theorem detect_gesture_history_step (r : RecState) (lms : Option (List V)) :
    (detect_gesture r lms).1.historyLength = r.historyLength
    ∧ ((detect_gesture r lms).1.gesture_history = r.gesture_history
      ∨ ∃ x, (detect_gesture r lms).1.gesture_history =
          boundedAppend r.historyLength r.gesture_history x) := by
  cases lms with
  | none => exact ⟨rfl, .inl rfl⟩
  | some l =>
    cases hc : count_extended_fingers l with
    | error e => simp [detect_gesture, hc]
    | ok fingers =>
      cases hb : bestGesture r.gesture_definitions fingers with
      | none => simp [detect_gesture, hc, hb]
      | some best =>
        by_cases hth : r.confidence_threshold ≤ best.2
        · exact ⟨by simp [detect_gesture, hc, hb, if_pos hth],
            .inr ⟨best.1, by simp [detect_gesture, hc, hb, if_pos hth]⟩⟩
        · simp [detect_gesture, hc, hb, if_neg hth]

/-- Any run of detections preserves the capacity field and the
length-within-capacity invariant of the gesture history. -/
theorem runDetections_invariant (inputs : List (Option (List V))) :
    ∀ r : RecState, (runDetections r inputs).historyLength = r.historyLength
      ∧ (r.gesture_history.length ≤ r.historyLength →
        (runDetections r inputs).gesture_history.length ≤ r.historyLength) := by
  induction inputs with
  | nil => exact fun r => ⟨rfl, id⟩
  | cons i is ih =>
    intro r
    have hstep := detect_gesture_history_step r i
    have hrest := ih (detect_gesture r i).1
    have hrun : runDetections r (i :: is) = runDetections (detect_gesture r i).1 is := rfl
    constructor
    · rw [hrun, hrest.1, hstep.1]
    · intro hb
      have hlen2 : (detect_gesture r i).1.gesture_history.length ≤
          (detect_gesture r i).1.historyLength := by
        rw [hstep.1]
        rcases hstep.2 with h | ⟨x, h⟩
        · rw [h]; exact hb
        · rw [h]; exact boundedAppend_length_le _ _ _
      have := hrest.2 hlen2
      rw [hrun]
      rwa [hstep.1] at this

/-- C9: however many detections are fed in, the gesture history never
exceeds the configured capacity, and an append to a full history drops the
oldest entry and keeps the remaining entries in order (FIFO ring). -/
theorem gesture_history_ring (hl : ℕ) (inputs : List (Option (List V))) :
    (runDetections (mkRecognizer hl) inputs).gesture_history.length ≤ hl
    ∧ ∀ (l : List String) (x : String), l.length = hl → 0 < hl →
        boundedAppend hl l x = l.tail ++ [x] := by
  constructor
  · have := (runDetections_invariant inputs (mkRecognizer hl)).2 (by simp [mkRecognizer])
    simpa [mkRecognizer] using this
  · intro l x hlen hpos
    rw [boundedAppend, show l.length + 1 - hl = 1 by omega]
    cases l with
    | nil => simp at hlen; omega
    | cons a t => simp

/-- Witness for C9: three fist detections on capacity 2 stay within bounds;
a full two-entry history evicts its oldest entry on append. -/
theorem gesture_history_ring_witness :
    (runDetections (mkRecognizer 2)
      [some (List.replicate 21 0), some (List.replicate 21 0),
       some (List.replicate 21 0)]).gesture_history.length ≤ 2
    ∧ boundedAppend 2 ["open_palm", "fist"] "peace" = ["fist", "peace"] := by
  constructor
  · exact (gesture_history_ring 2 _).1
  · have := (gesture_history_ring 2 []).2 ["open_palm", "fist"] "peace" rfl (by decide)
    simpa using this

/-- After the first frame of a constant-input stream the filter state is
initialized with the estimate pinned to the observation. -/
theorem kfIter_const_estimate (z : V) (n : ℕ) :
    ∃ p, kfIter z (n + 1) = .init z p := by
  induction n with
  | zero => exact ⟨1 + kfQ, rfl⟩
  | succ n ih =>
    obtain ⟨p, hp⟩ := ih
    refine ⟨(1 - p / (p + kfR)) * p + kfQ, ?_⟩
    show (kfRound (kfIter z (n + 1)) z).1 = _
    rw [hp]
    simp [kfRound, KFState.update, KFState.predict]

/-- Every frame of a constant-input stream outputs exactly the observed
point. -/
theorem kfRoundOut_const (z : V) (n : ℕ) : kfRoundOut z n = some z := by
  cases n with
  | zero => rfl
  | succ n =>
    obtain ⟨p, hp⟩ := kfIter_const_estimate z n
    rw [kfRoundOut, hp]
    simp [kfRound, KFState.update, KFState.predict]

/-- C10: with the same landmark fed on every frame, the (squared) distance
between the smoothed update-then-predict output and the input is
non-increasing from frame to frame, and the error variance after each round
follows `p ↦ (1 - k) * p + q` with gain `k = p / (p + 0.1)`. -/
theorem kalman_constant_stream_convergence (z : V) (n : ℕ) (p : ℚ)
    (hp : (kfIter z (n + 1)).variance = some p) :
    (∃ a b, kfRoundOut z (n + 1) = some a ∧ kfRoundOut z n = some b
      ∧ distSq a z ≤ distSq b z)
    ∧ (kfIter z (n + 2)).variance = some ((1 - p / (p + 1 / 10)) * p + 1 / 10) := by
  constructor
  · exact ⟨z, z, kfRoundOut_const z (n + 1), kfRoundOut_const z n, le_refl _⟩
  · obtain ⟨p0, hp0⟩ := kfIter_const_estimate z n
    rw [hp0] at hp
    have hpp : p0 = p := by simpa [KFState.variance] using hp
    subst hpp
    show ((kfRound (kfIter z (n + 1)) z).1).variance = _
    rw [hp0]
    simp [kfRound, KFState.update, KFState.predict, KFState.variance, kfQ, kfR]

/-- Witness for C10 at the concrete stream `z = (1, 2, 3)` after the first
frame (variance `1 + q`). -/
theorem kalman_constant_stream_convergence_witness :
    (∃ a b, kfRoundOut ((1 : ℚ), (2 : ℚ), (3 : ℚ)) 1 = some a
      ∧ kfRoundOut ((1 : ℚ), (2 : ℚ), (3 : ℚ)) 0 = some b
      ∧ distSq a (1, 2, 3) ≤ distSq b (1, 2, 3))
    ∧ (kfIter ((1 : ℚ), (2 : ℚ), (3 : ℚ)) 2).variance =
      some ((1 - (1 + kfQ) / ((1 + kfQ) + 1 / 10)) * (1 + kfQ) + 1 / 10) :=
  kalman_constant_stream_convergence (1, 2, 3) 0 (1 + kfQ) rfl
